import Mathlib

/-!
Verification of `src/app.py` (Shorts generator tool) against its
natural-language specification.

Strings are modelled as `List Char` (`Str`).  Python library calls that the
source relies on (`str.replace`, `str.find`, `str.rfind`, `str.strip`,
`json.loads`, `sorted`, list membership) are modelled explicitly; each model
carries a doc comment naming the Python operation it embeds.  Network and
service calls (`model.generate_content`, `genai.list_models`, gspread) are
inputs of the embedded functions: an outcome value says what the external
call returned or which exception it raised.
-/

/-- Python strings, modelled as lists of characters. -/
abbrev Str := List Char

/-- Python dictionaries with string keys and string values (the shape of every
dictionary the app builds), modelled as association lists in insertion order. -/
abbrev PyDict := List (Str × Str)

/-- Characters treated as whitespace by Python `str.strip()` (ASCII subset;
the app only ever strips ASCII wrapping produced by the model fences). -/
def isSpacePy (c : Char) : Bool :=
  c = ' ' || c = '\t' || c = '\n' || c = '\r' || c = '\x0b' || c = '\x0c'

/-- Python `text.strip()`: drop whitespace from both ends. -/
def pyStrip (s : Str) : Str :=
  ((s.dropWhile isSpacePy).reverse.dropWhile isSpacePy).reverse

/-- Index of the first occurrence of `c`, or `none`; models Python
`text.find(c)` (which returns `-1` for `none`). -/
def pyFindIdx (c : Char) : Str → Option Nat
  | [] => none
  | x :: xs => if x = c then some 0 else (pyFindIdx c xs).map (· + 1)

/-- Index of the last occurrence of `c`, or `none`; models Python
`text.rfind(c)` (which returns `-1` for `none`). -/
def pyRFindIdx (c : Char) (s : Str) : Option Nat :=
  (pyFindIdx c s.reverse).map (fun i => s.length - 1 - i)

/-- Fuel-driven worker for `pyReplaceDel`.  Scans left to right; on a match of
`pat` it skips the matched block and resumes after it, exactly as Python
`str.replace(pat, '')` does.  The fuel is only a structural-termination
device: it never runs out when it starts at the length of the string. -/
def praux (pat : Str) : Nat → Str → Str
  | _, [] => []
  | 0, s => s
  | fuel + 1, c :: rest =>
    if pat ≠ [] ∧ pat <+: (c :: rest) then praux pat fuel ((c :: rest).drop pat.length)
    else c :: praux pat fuel rest

/-- Python `text.replace(pat, '')`: remove every (left-to-right,
non-overlapping) occurrence of `pat`. -/
def pyReplaceDel (pat s : Str) : Str :=
  praux pat s.length s

/-- The fence marker `"```json"` removed first by `clean_json_string`. -/
def fenceJson : Str := ("\x60\x60\x60json").toList

/-- The fence marker `"```"` removed second by `clean_json_string`. -/
def fence3 : Str := ("\x60\x60\x60").toList

/-- The brace cut of `clean_json_string`: Python
`start = text.find('{'); end = text.rfind('}');`
`if start != -1 and end != -1: text = text[start:end+1]`. -/
def sliceBraces (t : Str) : Str :=
  match pyFindIdx '\x7b' t, pyRFindIdx '\x7d' t with
  | some s, some e => (t.drop s).take (e + 1 - s)
  | some _, none => t
  | none, some _ => t
  | none, none => t

/-- `clean_json_string` from `src/app.py` (lines 46-52): strip the two fence
markers, then cut from the first opening brace to the last closing brace
(when both exist), then strip whitespace. -/
def clean_json_string (text : Str) : Str :=
  pyStrip (sliceBraces (pyReplaceDel fence3 (pyReplaceDel fenceJson text)))

theorem praux_irrel (pat : Str) :
    ∀ f₁ f₂ s, s.length ≤ f₁ → s.length ≤ f₂ → praux pat f₁ s = praux pat f₂ s := by
  intro f₁
  induction f₁ with
  | zero =>
    intro f₂ s h₁ _
    have hs : s = [] := List.length_eq_zero.mp (Nat.le_zero.mp h₁)
    subst hs
    cases f₂ <;> simp [praux]
  | succ f ih =>
    intro f₂ s h₁ h₂
    match s with
    | [] => cases f₂ <;> simp [praux]
    | c :: rest =>
      match f₂ with
      | 0 => exact absurd h₂ (by simp)
      | f₂' + 1 =>
        simp only [praux]
        by_cases hc : pat ≠ [] ∧ pat <+: (c :: rest)
        · simp only [if_pos hc]
          have hplen : 1 ≤ pat.length := by
            have := hc.1
            cases pat with
            | nil => simp at this
            | cons p ps => simp
          have hlen := List.length_drop pat.length (c :: rest)
          simp only [List.length_cons] at hlen h₁ h₂
          have hd : ((c :: rest).drop pat.length).length ≤ f := by omega
          have hd₂ : ((c :: rest).drop pat.length).length ≤ f₂' := by omega
          exact ih f₂' _ hd hd₂
        · simp only [if_neg hc]
          have hr : rest.length ≤ f := by simp at h₁; omega
          have hr₂ : rest.length ≤ f₂' := by simp at h₂; omega
          rw [ih f₂' rest hr hr₂]

theorem pyReplaceDel_nil (pat : Str) : pyReplaceDel pat [] = [] := by
  simp [pyReplaceDel, praux]

theorem pyReplaceDel_cons (pat : Str) (c : Char) (s : Str) :
    pyReplaceDel pat (c :: s) =
      if pat ≠ [] ∧ pat <+: (c :: s) then pyReplaceDel pat ((c :: s).drop pat.length)
      else c :: pyReplaceDel pat s := by
  show praux pat (s.length + 1) (c :: s) = _
  simp only [praux]
  by_cases hc : pat ≠ [] ∧ pat <+: (c :: s)
  · simp only [if_pos hc]
    have hplen : 1 ≤ pat.length := by
      have := hc.1
      cases pat with
      | nil => simp at this
      | cons p ps => simp
    apply praux_irrel
    · have hlen := List.length_drop pat.length (c :: s)
      simp only [List.length_cons] at hlen
      omega
    · exact le_rfl
  · simp only [if_neg hc]
    rfl

/-- A quoted string at the head of the input: models the string scanner inside
Python `json.loads`, restricted to strings without escape sequences (the only
kind any claim evaluates).  Returns the content and the rest of the input. -/
def parseJString : Str → Option (Str × Str)
  | '"' :: rest =>
    match rest.dropWhile (fun c => c ≠ '"') with
    | '"' :: r => some (rest.takeWhile (fun c => c ≠ '"'), r)
    | _ => none
  | _ => none

/-- Comma-separated `"key": "value"` pairs; fueled worker for `pyJsonLoads`. -/
def parsePairsAux : Nat → Str → Option (PyDict × Str)
  | 0, _ => none
  | fuel + 1, s =>
    match parseJString (s.dropWhile isSpacePy) with
    | none => none
    | some (k, r) =>
      match r.dropWhile isSpacePy with
      | ':' :: r2 =>
        match parseJString (r2.dropWhile isSpacePy) with
        | none => none
        | some (v, r3) =>
          match r3.dropWhile isSpacePy with
          | ',' :: r4 =>
            match parsePairsAux fuel r4 with
            | some (ps, rest) => some ((k, v) :: ps, rest)
            | none => none
          | r5 => some ([(k, v)], r5)
      | _ => none

/-- The object scanner of the `json.loads` model (`pyJsonValLoads` below):
recovers a flat object whose keys and values are escape-free strings — the
schema shape the app's prompt requests.  Returns `none` on anything else;
top-level dispatch over non-object JSON values is `pyJsonValLoads`. -/
def pyJsonLoads (s : Str) : Option PyDict :=
  match s.dropWhile isSpacePy with
  | '\x7b' :: r =>
    match r.dropWhile isSpacePy with
    | '\x7d' :: r2 => if r2.dropWhile isSpacePy = [] then some [] else none
    | r1 =>
      match parsePairsAux (r1.length + 1) r1 with
      | some (ps, rest) =>
        match rest.dropWhile isSpacePy with
        | '\x7d' :: r3 => if r3.dropWhile isSpacePy = [] then some ps else none
        | _ => none
      | none => none
  | _ => none

/-- A JSON value as Python `json.loads` returns it: an object (restricted to
the flat string-valued shape above), an array, a string, an integer, a
boolean, or `None` — `json.loads` is not guaranteed to return a dictionary. -/
inductive PyVal where
  | obj (d : PyDict)
  | arr (elems : List PyVal)
  | str (s : Str)
  | int (n : Int)
  | bool (b : Bool)
  | null

/-- Decimal digit run to a number, for the JSON number scanner. -/
def digitsToNat (ds : Str) : Nat :=
  ds.foldl (fun acc c => acc * 10 + (c.toNat - 48)) 0

mutual

/-- One JSON value at the head of the input (leading whitespace already
skipped): `null`, `true`/`false`, an escape-free string, an integer, or an
array of values (nested arrays included).  Fueled recursive descent. -/
def parseVal : Nat → Str → Option (PyVal × Str)
  | 0, _ => none
  | fuel + 1, s =>
    match s with
    | [] => none
    | 'n' :: 'u' :: 'l' :: 'l' :: r => some (PyVal.null, r)
    | 't' :: 'r' :: 'u' :: 'e' :: r => some (PyVal.bool true, r)
    | 'f' :: 'a' :: 'l' :: 's' :: 'e' :: r => some (PyVal.bool false, r)
    | '"' :: r =>
      match parseJString ('"' :: r) with
      | some (content, rest) => some (PyVal.str content, rest)
      | none => none
    | '[' :: r =>
      match r.dropWhile isSpacePy with
      | ']' :: r2 => some (PyVal.arr [], r2)
      | r1 =>
        match parseElems fuel r1 with
        | some (vs, rest) =>
          match rest.dropWhile isSpacePy with
          | ']' :: r3 => some (PyVal.arr vs, r3)
          | _ => none
        | none => none
    | '-' :: r =>
      match r.takeWhile Char.isDigit with
      | [] => none
      | ds => some (PyVal.int (-(digitsToNat ds : Int)), r.dropWhile Char.isDigit)
    | c :: r =>
      if c.isDigit then
        some (PyVal.int (digitsToNat ((c :: r).takeWhile Char.isDigit)),
          (c :: r).dropWhile Char.isDigit)
      else none

/-- Comma-separated array elements for `parseVal`. -/
def parseElems : Nat → Str → Option (List PyVal × Str)
  | 0, _ => none
  | fuel + 1, s =>
    match parseVal fuel (s.dropWhile isSpacePy) with
    | none => none
    | some (v, rest) =>
      match rest.dropWhile isSpacePy with
      | ',' :: r2 =>
        match parseElems fuel r2 with
        | some (vs, rest2) => some (v :: vs, rest2)
        | none => none
      | r3 => some ([v], r3)

end

/-- Models Python `json.loads` at top level.  A brace-initial payload goes
through the flat-object scanner `pyJsonLoads`; any other payload is parsed as
a JSON value — `null`, booleans, integers, escape-free strings, and arrays
(nested arrays included) — which `json.loads` returns as-is, without being a
dictionary.  Outside this modelled subset (floats, escape sequences, objects
with nested or non-string member values) the model answers `none`; real
`json.loads` accepts some of those payloads, and no theorem below relies on
the model's answer for them. -/
def pyJsonValLoads (s : Str) : Option PyVal :=
  match pyJsonLoads s with
  | some d => some (PyVal.obj d)
  | none =>
    match s.dropWhile isSpacePy with
    | '\x7b' :: _ => none
    | t =>
      match parseVal (2 * t.length + 2) t with
      | some (v, rest) => if rest.dropWhile isSpacePy = [] then some v else none
      | none => none

/-- First binding of `key`; the app never builds a dictionary with duplicate
keys, so this coincides with Python dictionary lookup. -/
def dlookup : PyDict → Str → Option Str
  | [], _ => none
  | (k, v) :: rest, key => if k = key then some v else dlookup rest key

/-- Python `d.get(key, '')` as used throughout the top-level UI flow. -/
def dget (d : PyDict) (key : Str) : Str := (dlookup d key).getD []

def kError : Str := ("error").toList
def kTitleEn : Str := ("title_en").toList
def kTitleZh : Str := ("title_zh").toList
def kVeo : Str := ("veo_prompt").toList
def kKling : Str := ("kling_prompt").toList
def kScriptEn : Str := ("script_en").toList
def kScriptZh : Str := ("script_zh").toList
def kTags : Str := ("tags").toList
def kComment : Str := ("comment").toList

/-- The f-string template of `generate_creative_content` (src/app.py lines
148-191) up to the `{title}` interpolation point.  Braces and apostrophes are
written as `\x7b`/`\x7d`/`\x27` escapes; the text is otherwise verbatim. -/
def promptPre : Str :=
  ("\n    You are an expert AI Video Director specializing in creating viral Shorts using \x27Google Veo\x27 and \x27Kling AI\x27.\n    \n    Input Video Info:\n    - Original Title: ").toList

/-- The template between the `{title}` and `{desc}` interpolation points. -/
def promptMid : Str := ("\n    - Description: ").toList

/-- The template after the `{desc}` interpolation point (the doubled braces of
the Python f-string denote literal braces, written here as escapes). -/
def promptPost : Str :=
  ("\n    \n    YOUR MISSION:\n    Create a plan for a NEW, DERIVATIVE 9-12 second video. Do NOT just copy the original. Extract the \"Satisfying Element\" or \"Core Humor\" and reimagine it with higher quality visuals.\n    \n    REQUIREMENTS:\n    \n    1. **VEO PROMPT (Cinematic Focus):**\n       - Veo excels at: 1080p+, Continuous shots, Cinematic Lighting, Drone flyovers, Slow-motion.\n       - Structure: [Medium/Style], [Subject], [Action], [Lighting/Atmosphere], [Camera Movement], [Technical Specs].\n       - Example: \"Cinematic 4k shot, drone view, a golden retriever running through a field of lavender during golden hour, soft volumetric lighting, slow motion 60fps, highly detailed fur.\"\n       \n    2. **KLING PROMPT (Physics & Motion Focus):**\n       - Kling excels at: Realistic human motion, fluid dynamics, complex interactions.\n       - Structure: [Subject], [Detailed Action], [Environment], [Style].\n       - Example: \"A cyberpunk chef chopping neon vegetables, sparks flying, realistic physics, 8k resolution, cyberpunk city background, detailed textures.\"\n       \n    3. **SEO TAGS (Exposure Strategy):**\n       - Mix 3 types of tags: \n         (A) Broad Niche (e.g., #Satisfying, #Funny)\n         (B) Specific Content (e.g., #HydraulicPress, #CuteCat)\n         (C) Trending/AI (e.g., #AIArt, #Veo, #ShortsTrend)\n       - Provide 15-20 high-traffic tags.\n       \n    4. **SCRIPTS:**\n       - Write a visual flow (not dialogue heavy). Focus on what we SEE.\n    \n    OUTPUT JSON ONLY:\n    \x7b\n        \"title_en\": \"Clickbait-style English Title (Short & Punchy)\",\n        \"title_zh\": \"繁體中文標題 (帶有情緒、懸念或驚嘆)\",\n        \"veo_prompt\": \"English prompt optimized for VEO (Cinematic/Camera focus)\",\n        \"kling_prompt\": \"English prompt optimized for KLING (Motion/Physics focus)\",\n        \"script_en\": \"Visual description of the new video flow\",\n        \"script_zh\": \"繁體中文畫面描述 (強調視覺衝擊)\",\n        \"tags\": \"#Tag1 #Tag2 ... (Optimized list)\",\n        \"comment\": \"A strategic first comment to pin (engaging question)\"\n    \x7d\n    ").toList

/-- The prompt interpolation of `generate_creative_content` (the spec calls it
`buildPrompt`): the fixed template with `title` and `desc` spliced in. -/
def buildPrompt (title desc : Str) : Str :=
  promptPre ++ title ++ promptMid ++ desc ++ promptPost

/-- Outcome of the one network call `model.generate_content(prompt)`:
either the raw response text, or the message of the exception it raised
(rate limit, unavailable model, network failure, ... — the source does not
distinguish them). -/
inductive GenOutcome where
  | ok (text : Str)
  | exn (msg : Str)
deriving DecidableEq

/-- Return value of `generate_creative_content` plus the trace of models the
call actually contacted (the body performs exactly one backend invocation,
so the trace always has exactly one entry).  `result` is whatever value
`json.loads` produced — not necessarily a dictionary — or the error
dictionary built by the `except` branch. -/
structure GenResult where
  result : PyVal
  calls : List Str

/-- Models `str(e)` for the `json.JSONDecodeError` raised by `json.loads`; the
exact message text is runtime-specific and no claim depends on it, so it is a
fixed placeholder. -/
def jsonDecodeErrMsg (_raw : Str) : Str := ("JSONDecodeError").toList

/-- `generate_creative_content` from `src/app.py` (lines 138-196): build the
prompt, invoke the chosen model once, parse the cleaned response; any
exception (from the call or from `json.loads`) is caught and collapsed into
the single-key dictionary `{"error": str(e)}`. -/
def generate_creative_content (backend : Str → Str → GenOutcome)
    (title desc model_name : Str) : GenResult :=
  match backend model_name (buildPrompt title desc) with
  | .exn m => { result := PyVal.obj [(kError, m)], calls := [model_name] }
  | .ok t =>
    match pyJsonValLoads (clean_json_string t) with
    | some v => { result := v, calls := [model_name] }
    | none => { result := PyVal.obj [(kError, jsonDecodeErrMsg t)], calls := [model_name] }

/-- The generate-button handler (src/app.py lines 297-305): the selectbox
defaults to the first entry of `model_options`; with no options the handler
shows an error and performs no generation (`none`); otherwise it calls
`generate_creative_content` once with the selected model. -/
def run_generate_button (backend : Str → Str → GenOutcome)
    (model_options : List Str) (title desc : Str) : Option GenResult :=
  match model_options with
  | [] => none
  | m :: _ => some (generate_creative_content backend title desc m)

/-- The `data_to_save` dictionary built by the UI flow (lines 319-329). -/
structure SavePayload where
  url : Str
  title_en : Str
  title_zh : Str
  veo_prompt : Str
  kling_prompt : Str
  script_en : Str
  script_zh : Str
  tags : Str
  comment : Str
deriving DecidableEq

/-- Outcome of the gspread credential/open/append interaction inside
`save_to_sheet`: success, or the message of whatever exception was raised. -/
inductive CredsOutcome where
  | ok
  | exn (msg : Str)
deriving DecidableEq

/-- The `row` list built by `save_to_sheet` (lines 207-218): timestamp
truncated to 16 characters, then the fields in fixed positional order. -/
def sheetRow (now : Str) (d : SavePayload) : List Str :=
  [now.take 16, d.url, d.title_en, d.title_zh, d.veo_prompt, d.kling_prompt,
   d.script_en, d.script_zh, d.tags, d.comment]

/-- `save_to_sheet` from `src/app.py` (lines 199-223): on success append the
single fixed-order row and return True; on any exception return False with
the sheet untouched.  `now` is the `str(datetime.now())` value. -/
def save_to_sheet (now : Str) (d : SavePayload) (creds : CredsOutcome)
    (sheet : List (List Str)) : Bool × List (List Str) :=
  match creds with
  | .exn _ => (false, sheet)
  | .ok => (true, sheet ++ [sheetRow now d])

/-- The eight `st.session_state.ai_*` assignments of the UI flow
(lines 309-316). -/
structure SessionGen where
  ai_title_en : Str
  ai_title_zh : Str
  ai_veo : Str
  ai_kling : Str
  ai_script_en : Str
  ai_script_zh : Str
  ai_tags : Str
  ai_comment : Str
deriving DecidableEq

def sessionOf (ai_data : PyDict) : SessionGen :=
  { ai_title_en := dget ai_data kTitleEn, ai_title_zh := dget ai_data kTitleZh,
    ai_veo := dget ai_data kVeo, ai_kling := dget ai_data kKling,
    ai_script_en := dget ai_data kScriptEn, ai_script_zh := dget ai_data kScriptZh,
    ai_tags := dget ai_data kTags, ai_comment := dget ai_data kComment }

def payloadOf (url : Str) (ai_data : PyDict) : SavePayload :=
  { url := url, title_en := dget ai_data kTitleEn, title_zh := dget ai_data kTitleZh,
    veo_prompt := dget ai_data kVeo, kling_prompt := dget ai_data kKling,
    script_en := dget ai_data kScriptEn, script_zh := dget ai_data kScriptZh,
    tags := dget ai_data kTags, comment := dget ai_data kComment }

/-- What the UI flow does with a `generate_creative_content` result. -/
inductive HandlerOutcome where
  | generationFailed (msg : Str)
  | saved (session : SessionGen) (payload : SavePayload) (sheet : List (List Str))
  | saveFailed (session : SessionGen) (payload : SavePayload) (sheet : List (List Str))
deriving DecidableEq

/-- The top-level UI flow after generation (src/app.py lines 307-335): if the
result carries an `"error"` key, report failure; otherwise assign the eight
session-state fields from `ai_data.get(..., '')`, build `data_to_save` the
same way, and call `save_to_sheet` once. -/
def handle_ai_data (url now : Str) (creds : CredsOutcome)
    (sheet : List (List Str)) (ai_data : PyDict) : HandlerOutcome :=
  if (dlookup ai_data kError).isSome then .generationFailed (dget ai_data kError)
  else
    match save_to_sheet now (payloadOf url ai_data) creds sheet with
    | (true, sheet2) => .saved (sessionOf ai_data) (payloadOf url ai_data) sheet2
    | (false, sheet2) => .saveFailed (sessionOf ai_data) (payloadOf url ai_data) sheet2

/-- One entry of `genai.list_models()`. -/
structure ModelInfo where
  name : Str
  supported_generation_methods : List Str
deriving DecidableEq

/-- Outcome of the `genai.list_models()` iteration inside `get_valid_models`:
either the full listing, or an exception raised after `processed` entries had
already been consumed by the loop (`processed = []` when the service is
unreachable from the start). -/
inductive ListModelsOutcome where
  | ok (models : List ModelInfo)
  | exn (processed : List ModelInfo) (msg : Str)
deriving DecidableEq

def genContentMethod : Str := ("generateContent").toList

/-- The names collected by the loop of `get_valid_models`: entries whose
`supported_generation_methods` contain `'generateContent'`. -/
def capableNames (ms : List ModelInfo) : List Str :=
  (ms.filter (fun m => decide (genContentMethod ∈ m.supported_generation_methods))).map ModelInfo.name

/-- Python string `<`: lexicographic by code point, a proper prefix is
smaller. -/
def strLt : Str → Str → Bool
  | [], [] => false
  | [], _ :: _ => true
  | _ :: _, [] => false
  | a :: as, b :: bs =>
    if a.toNat < b.toNat then true
    else if b.toNat < a.toNat then false
    else strLt as bs

def insertDesc (x : Str) : List Str → List Str
  | [] => [x]
  | y :: ys => if strLt y x then x :: y :: ys else y :: insertDesc x ys

/-- Python `sorted(l, reverse=True)` on strings: descending insertion sort.
Python's sort is stable, but string keys that compare equal are identical
strings, so stability is unobservable and this is the same function. -/
def pySortedDesc : List Str → List Str
  | [] => []
  | x :: xs => insertDesc x (pySortedDesc xs)

/-- `get_valid_models` from `src/app.py` (lines 31-43).  The `Except` return
type models the possibility of raising: a branch that raised would produce
`Except.error`; the source guards a falsy key and wraps the listing loop in
`try/except: pass`, then returns `sorted(valid_models, reverse=True)`, so
every branch in fact returns `Except.ok`. -/
def get_valid_models (api_key : Option Str) (outcome : ListModelsOutcome) :
    Except Str (List Str) :=
  if api_key = none ∨ api_key = some [] then Except.ok []
  else
    match outcome with
    | .ok ms => Except.ok (pySortedDesc (capableNames ms))
    | .exn ms _ => Except.ok (pySortedDesc (capableNames ms))

/-- Hashtag-shaped word characters (regex `\w`). -/
def isWordChar (c : Char) : Bool := c.isAlphanum || c = '_'

/-- Fueled worker for `tokenizeTags`. -/
def tokauz : Nat → Str → List Str
  | 0, _ => []
  | _, [] => []
  | fuel + 1, c :: rest =>
    if c = '#' then
      match rest.takeWhile isWordChar with
      | [] => tokauz fuel rest
      | w => ('#' :: w) :: tokauz fuel (rest.dropWhile isWordChar)
    else tokauz fuel rest

/-- Modelled from the spec: the tag tokenization of the Content Policy Filter
(`#` followed by word characters).  The source contains no tag filtering at
all; this definition exists to state the spec's policy and refute it against
the code's passthrough behaviour. -/
def tokenizeTags (s : Str) : List Str := tokauz s.length s

def lowerStr (s : Str) : Str := s.map Char.toLower

/-- Modelled from the spec: the fixed denylist of vendor/tool names — the
generation backends the prompt names (Veo, Kling) — in case-insensitive
hashtag form.  The source contains no such list. -/
def denylist : List Str := [("#veo").toList, ("#kling").toList]

/-- Modelled from the spec: the mandated marker tag (the spec's end-to-end
scenario appends `#AI`).  The source never appends any tag. -/
def markerTag : Str := ("#ai").toList

/-- The invariant claimed by the spec for every delivered tag field: no
denylisted token in any casing, and at least one marker tag. -/
def specTagPolicyHolds (s : Str) : Prop :=
  (∀ t ∈ tokenizeTags s, lowerStr t ∉ denylist) ∧
  (∃ t ∈ tokenizeTags s, lowerStr t = markerTag)

instance (s : Str) : Decidable (specTagPolicyHolds s) :=
  inferInstanceAs (Decidable (_ ∧ _))

/-- Concrete model-output dictionary whose `tags` field carries a denylisted
vendor token and no marker tag. -/
def cexTagsDict : PyDict := [(kTags, ("#Veo #Fun").toList)]

/-- Concrete raw model text whose payload is missing the required key
`title_en` but carries every other schema key. -/
def cexRawNoTitle : Str :=
  ("\x7b\"title_zh\":\"x\",\"veo_prompt\":\"v\",\"kling_prompt\":\"k\",\"script_en\":\"e\",\"script_zh\":\"z\",\"tags\":\"#T\",\"comment\":\"c\"\x7d").toList

/-- The dictionary `json.loads` recovers from `cexRawNoTitle`. -/
def cexDictNoTitle : PyDict :=
  [(kTitleZh, ("x").toList), (kVeo, ("v").toList), (kKling, ("k").toList),
   (kScriptEn, ("e").toList), (kScriptZh, ("z").toList),
   (kTags, ("#T").toList), (kComment, ("c").toList)]

/-- Concrete raw model text carrying every schema key. -/
def cexGoodRaw : Str :=
  ("\x7b\"title_en\":\"t\",\"title_zh\":\"u\",\"veo_prompt\":\"v\",\"kling_prompt\":\"k\",\"script_en\":\"e\",\"script_zh\":\"z\",\"tags\":\"#T\",\"comment\":\"c\"\x7d").toList

def cexModelA : ModelInfo := ⟨("models/a").toList, [genContentMethod]⟩
def cexModelB : ModelInfo := ⟨("models/b").toList, [genContentMethod]⟩

theorem pyReplaceDel_append (pat : Str) (c : Char) (hc : c ∉ pat) :
    ∀ a b : Str, pyReplaceDel pat (a ++ c :: b) = pyReplaceDel pat a ++ pyReplaceDel pat (c :: b) := by
  have H : ∀ n, ∀ a b : Str, a.length ≤ n →
      pyReplaceDel pat (a ++ c :: b) = pyReplaceDel pat a ++ pyReplaceDel pat (c :: b) := by
    intro n
    induction n with
    | zero =>
      intro a b h
      have ha : a = [] := List.length_eq_zero.mp (Nat.le_zero.mp h)
      subst ha
      simp [pyReplaceDel_nil]
    | succ n ih =>
      intro a b h
      match a with
      | [] => simp [pyReplaceDel_nil]
      | x :: t =>
        by_cases hcnd : pat ≠ [] ∧ pat <+: (x :: t) ++ c :: b
        · obtain ⟨hne, hpre⟩ := hcnd
          have hplen : 1 ≤ pat.length := by
            cases pat with
            | nil => simp at hne
            | cons p ps => simp
          have hle : pat.length ≤ (x :: t).length := by
            by_contra hgt
            push_neg at hgt
            have hp' := List.prefix_iff_eq_take.mp hpre
            rw [List.take_append_eq_append_take,
                List.take_of_length_le (Nat.le_of_lt hgt)] at hp'
            have hck : ∃ m, pat.length - (x :: t).length = m + 1 := by
              refine ⟨pat.length - (x :: t).length - 1, ?_⟩
              simp only [List.length_cons] at hgt ⊢
              omega
            obtain ⟨m, hm⟩ := hck
            rw [hm, List.take_succ_cons] at hp'
            have hcm : c ∈ pat := by
              rw [hp']
              exact List.mem_append_right _ (List.mem_cons_self c _)
            exact hc hcm
          have hpa : pat <+: x :: t := by
            have hp' := List.prefix_iff_eq_take.mp hpre
            rw [List.take_append_eq_append_take, Nat.sub_eq_zero_of_le hle,
                List.take_zero, List.append_nil] at hp'
            rw [hp']
            exact List.take_prefix _ _
          have hpre₂ : pat <+: x :: (t ++ c :: b) := by
            rw [← List.cons_append]
            exact hpre
          have hdrop : ((x :: t) ++ c :: b).drop pat.length
              = (x :: t).drop pat.length ++ c :: b := by
            rw [List.drop_append_eq_append_drop, Nat.sub_eq_zero_of_le hle, List.drop_zero]
          rw [List.cons_append, pyReplaceDel_cons, if_pos ⟨hne, hpre₂⟩, ← List.cons_append,
              hdrop]
          have hlen₂ : ((x :: t).drop pat.length).length ≤ n := by
            rw [List.length_drop]
            simp only [List.length_cons] at h ⊢
            omega
          rw [ih ((x :: t).drop pat.length) b hlen₂]
          rw [pyReplaceDel_cons (s := t), if_pos ⟨hne, hpa⟩]
        · have hcnd₂ : ¬(pat ≠ [] ∧ pat <+: x :: (t ++ c :: b)) := by
            rintro ⟨hne, hp⟩
            rw [← List.cons_append] at hp
            exact hcnd ⟨hne, hp⟩
          have hcnd₃ : ¬(pat ≠ [] ∧ pat <+: x :: t) := by
            rintro ⟨hne, hp⟩
            exact hcnd ⟨hne, hp.trans (List.prefix_append _ _)⟩
          rw [List.cons_append, pyReplaceDel_cons, if_neg hcnd₂]
          have hlt : t.length ≤ n := by
            simp only [List.length_cons] at h
            omega
          rw [ih t b hlt, pyReplaceDel_cons (s := t), if_neg hcnd₃, List.cons_append]
  exact fun a b => H a.length a b le_rfl

theorem mem_pyReplaceDel (pat : Str) :
    ∀ s : Str, ∀ x, x ∈ pyReplaceDel pat s → x ∈ s := by
  have H : ∀ n, ∀ s : Str, s.length ≤ n → ∀ x, x ∈ pyReplaceDel pat s → x ∈ s := by
    intro n
    induction n with
    | zero =>
      intro s h x hx
      have hs : s = [] := List.length_eq_zero.mp (Nat.le_zero.mp h)
      subst hs
      rw [pyReplaceDel_nil] at hx
      simp at hx
    | succ n ih =>
      intro s h x hx
      match s with
      | [] =>
        rw [pyReplaceDel_nil] at hx
        simp at hx
      | c :: t =>
        rw [pyReplaceDel_cons] at hx
        by_cases hcnd : pat ≠ [] ∧ pat <+: (c :: t)
        · rw [if_pos hcnd] at hx
          have hplen : 1 ≤ pat.length := by
            cases pat with
            | nil => exact absurd rfl hcnd.1
            | cons p ps => simp
          have hlen : ((c :: t).drop pat.length).length ≤ n := by
            rw [List.length_drop]
            simp only [List.length_cons] at h ⊢
            omega
          exact List.drop_subset _ _ (ih _ hlen x hx)
        · rw [if_neg hcnd] at hx
          cases List.mem_cons.mp hx with
          | inl h1 => exact h1 ▸ List.mem_cons_self c t
          | inr h2 =>
            have hlt : t.length ≤ n := by
              simp only [List.length_cons] at h
              omega
            exact List.mem_cons_of_mem c (ih t hlt x h2)
  exact fun s x hx => H s.length s le_rfl x hx

theorem pyReplaceDel_cons_ne (pat : Str) (p0 : Char) (hp : pat.head? = some p0)
    (c : Char) (hne : p0 ≠ c) (s : Str) :
    pyReplaceDel pat (c :: s) = c :: pyReplaceDel pat s := by
  have hno : ¬(pat ≠ [] ∧ pat <+: (c :: s)) := by
    rintro ⟨hne', t₂, ht⟩
    cases pat with
    | nil => exact hne' rfl
    | cons q qr =>
      rw [List.head?_cons] at hp
      injection hp with hp1
      rw [List.cons_append] at ht
      injection ht with h1 _
      exact hne (hp1 ▸ h1)
  rw [pyReplaceDel_cons, if_neg hno]

theorem pyReplaceDel_noisy (pat : Str) (p0 : Char) (hp : pat.head? = some p0)
    (hb1 : '\x7b' ∉ pat) (hb2 : '\x7d' ∉ pat)
    (h1 : p0 ≠ '\x7b') (h2 : p0 ≠ '\x7d') (pre mid suf : Str) :
    pyReplaceDel pat (pre ++ '\x7b' :: (mid ++ '\x7d' :: suf)) =
      pyReplaceDel pat pre ++
        '\x7b' :: (pyReplaceDel pat mid ++ '\x7d' :: pyReplaceDel pat suf) := by
  rw [pyReplaceDel_append pat _ hb1, pyReplaceDel_cons_ne pat p0 hp _ h1,
      pyReplaceDel_append pat _ hb2, pyReplaceDel_cons_ne pat p0 hp _ h2]

theorem pyReplaceDel_payload (pat : Str) (p0 : Char) (hp : pat.head? = some p0)
    (hb2 : '\x7d' ∉ pat) (h1 : p0 ≠ '\x7b') (h2 : p0 ≠ '\x7d') (mid : Str) :
    pyReplaceDel pat ('\x7b' :: (mid ++ ['\x7d'])) =
      '\x7b' :: (pyReplaceDel pat mid ++ ['\x7d']) := by
  rw [pyReplaceDel_cons_ne pat p0 hp _ h1, pyReplaceDel_append pat _ hb2,
      pyReplaceDel_cons_ne pat p0 hp _ h2, pyReplaceDel_nil]

theorem pyFindIdx_cons_self (c : Char) (s : Str) : pyFindIdx c (c :: s) = some 0 := by
  simp [pyFindIdx]

theorem pyFindIdx_append_not_mem (c : Char) (a : Str) (h : c ∉ a) (b : Str) :
    pyFindIdx c (a ++ b) = (pyFindIdx c b).map (· + a.length) := by
  induction a with
  | nil =>
    simp only [List.nil_append, List.length_nil]
    cases pyFindIdx c b <;> simp
  | cons x xs ih =>
    have hx : ¬(x = c) := fun he => h (he ▸ List.mem_cons_self x xs)
    have hxs : c ∉ xs := fun hm => h (List.mem_cons_of_mem x hm)
    rw [List.cons_append]
    simp only [pyFindIdx, if_neg hx, ih hxs, List.length_cons]
    cases pyFindIdx c b with
    | none => simp
    | some i =>
      simp only [Option.map_some', Option.some.injEq]
      omega

theorem dropWhile_cons_false (p : Char → Bool) (c : Char) (s : Str) (h : p c = false) :
    (c :: s).dropWhile p = c :: s := by
  simp [List.dropWhile, h]

theorem pyStrip_payload (mid : Str) :
    pyStrip ('\x7b' :: (mid ++ ['\x7d'])) = '\x7b' :: (mid ++ ['\x7d']) := by
  unfold pyStrip
  rw [dropWhile_cons_false _ _ _ (by decide)]
  have hrev : ('\x7b' :: (mid ++ ['\x7d'])).reverse = '\x7d' :: (mid.reverse ++ ['\x7b']) := by
    simp
  rw [hrev, dropWhile_cons_false _ _ _ (by decide), ← hrev, List.reverse_reverse]

theorem sliceBraces_eq (t : Str) (s e : Nat)
    (h1 : pyFindIdx '\x7b' t = some s) (h2 : pyRFindIdx '\x7d' t = some e) :
    sliceBraces t = (t.drop s).take (e + 1 - s) := by
  unfold sliceBraces
  rw [h1, h2]

theorem clean_json_string_noisy (pre mid suf : Str)
    (hb1 : '\x7b' ∉ pre) (hb4 : '\x7d' ∉ suf) :
    clean_json_string (pre ++ ('\x7b' :: (mid ++ ['\x7d'])) ++ suf) =
      '\x7b' :: (pyReplaceDel fence3 (pyReplaceDel fenceJson mid) ++ ['\x7d']) := by
  have harr : pre ++ ('\x7b' :: (mid ++ ['\x7d'])) ++ suf
      = pre ++ '\x7b' :: (mid ++ '\x7d' :: suf) := by simp
  unfold clean_json_string
  rw [harr]
  rw [pyReplaceDel_noisy fenceJson '\x60' (by rfl) (by decide) (by decide) (by decide) (by decide)]
  rw [pyReplaceDel_noisy fence3 '\x60' (by rfl) (by decide) (by decide) (by decide) (by decide)]
  set P2 := pyReplaceDel fence3 (pyReplaceDel fenceJson pre) with hP2
  set M2 := pyReplaceDel fence3 (pyReplaceDel fenceJson mid) with hM2
  set S2 := pyReplaceDel fence3 (pyReplaceDel fenceJson suf) with hS2
  have hPmem : '\x7b' ∉ P2 := by
    intro hm
    rw [hP2] at hm
    exact hb1 (mem_pyReplaceDel fenceJson pre _ (mem_pyReplaceDel fence3 _ _ hm))
  have hSmem : '\x7d' ∉ S2 := by
    intro hm
    rw [hS2] at hm
    exact hb4 (mem_pyReplaceDel fenceJson suf _ (mem_pyReplaceDel fence3 _ _ hm))
  have hfind : pyFindIdx '\x7b' (P2 ++ '\x7b' :: (M2 ++ '\x7d' :: S2)) = some P2.length := by
    rw [pyFindIdx_append_not_mem _ _ hPmem, pyFindIdx_cons_self]
    simp
  have hrevT : (P2 ++ '\x7b' :: (M2 ++ '\x7d' :: S2)).reverse
      = S2.reverse ++ '\x7d' :: (M2.reverse ++ '\x7b' :: P2.reverse) := by
    simp
  have hrfind : pyRFindIdx '\x7d' (P2 ++ '\x7b' :: (M2 ++ '\x7d' :: S2))
      = some (P2.length + M2.length + 1) := by
    unfold pyRFindIdx
    rw [hrevT, pyFindIdx_append_not_mem _ _ (by simpa using hSmem), pyFindIdx_cons_self]
    simp only [Option.map_some', Option.some.injEq, List.length_reverse,
      List.length_append, List.length_cons]
    omega
  rw [sliceBraces_eq _ _ _ hfind hrfind, List.drop_left]
  have htk : P2.length + M2.length + 1 + 1 - P2.length = M2.length + 2 := by omega
  rw [htk]
  have htake : ('\x7b' :: (M2 ++ '\x7d' :: S2)).take (M2.length + 2)
      = '\x7b' :: (M2 ++ ['\x7d']) := by
    rw [show M2.length + 2 = (M2.length + 1) + 1 from rfl, List.take_succ_cons,
        List.take_append_eq_append_take, List.take_of_length_le (Nat.le_succ _),
        show M2.length + 1 - M2.length = 1 by omega,
        show ('\x7d' :: S2).take 1 = ['\x7d'] from rfl]
  rw [htake, pyStrip_payload]

theorem clean_json_string_payload (mid : Str) :
    clean_json_string ('\x7b' :: (mid ++ ['\x7d'])) =
      '\x7b' :: (pyReplaceDel fence3 (pyReplaceDel fenceJson mid) ++ ['\x7d']) := by
  unfold clean_json_string
  rw [pyReplaceDel_payload fenceJson '\x60' (by rfl) (by decide) (by decide) (by decide)]
  rw [pyReplaceDel_payload fence3 '\x60' (by rfl) (by decide) (by decide) (by decide)]
  set M2 := pyReplaceDel fence3 (pyReplaceDel fenceJson mid) with hM2
  have hfind : pyFindIdx '\x7b' ('\x7b' :: (M2 ++ ['\x7d'])) = some 0 :=
    pyFindIdx_cons_self _ _
  have hrev : ('\x7b' :: (M2 ++ ['\x7d'])).reverse = '\x7d' :: (M2.reverse ++ ['\x7b']) := by
    simp
  have hrfind : pyRFindIdx '\x7d' ('\x7b' :: (M2 ++ ['\x7d'])) = some (M2.length + 1) := by
    unfold pyRFindIdx
    rw [hrev, pyFindIdx_cons_self]
    simp only [Option.map_some', Option.some.injEq, List.length_cons,
      List.length_append, List.length_nil]
    omega
  rw [sliceBraces_eq _ _ _ hfind hrfind, List.drop_zero]
  rw [List.take_of_length_le (by simp)]
  exact pyStrip_payload M2

theorem pyJsonValLoads_obj (s : Str) (d : PyDict) (h : pyJsonLoads s = some d) :
    pyJsonValLoads s = some (PyVal.obj d) := by
  unfold pyJsonValLoads
  rw [h]

/-- C7: extraction is insensitive to surrounding noise — for a brace-delimited
payload `X = '{' :: mid ++ ['}']` and ASCII prefix/suffix strings containing
no brace characters, extracting `prefix + X + suffix` (fence stripping, brace
cut, strip, `json.loads`) yields the same result as extracting `X` alone —
both for the full `json.loads` model and for its object scanner. -/
theorem c7_extract_ignores_surrounding_noise (pre suf mid : Str)
    (hpre1 : '\x7b' ∉ pre) (_hpre2 : '\x7d' ∉ pre)
    (_hsuf1 : '\x7b' ∉ suf) (hsuf2 : '\x7d' ∉ suf)
    (_hpreA : ∀ c ∈ pre, c.toNat < 128) (_hsufA : ∀ c ∈ suf, c.toNat < 128) :
    pyJsonValLoads (clean_json_string (pre ++ ('\x7b' :: (mid ++ ['\x7d'])) ++ suf)) =
      pyJsonValLoads (clean_json_string ('\x7b' :: (mid ++ ['\x7d'])))
    ∧ pyJsonLoads (clean_json_string (pre ++ ('\x7b' :: (mid ++ ['\x7d'])) ++ suf)) =
      pyJsonLoads (clean_json_string ('\x7b' :: (mid ++ ['\x7d']))) := by
  rw [clean_json_string_noisy pre mid suf hpre1 hsuf2, clean_json_string_payload mid]
  exact ⟨rfl, rfl⟩

set_option maxRecDepth 100000 in
/-- C7 witness: the noise-insensitivity theorem applied at a concrete fenced
payload with prose on both sides. -/
theorem c7_extract_ignores_surrounding_noise_witness :
    pyJsonValLoads (clean_json_string ((("noise \x60\x60\x60json\n").toList) ++
        ('\x7b' :: ((("\"a\":\"b\"").toList) ++ ['\x7d'])) ++ (("\n\x60\x60\x60 done").toList))) =
      pyJsonValLoads (clean_json_string ('\x7b' :: ((("\"a\":\"b\"").toList) ++ ['\x7d'])))
    ∧ pyJsonLoads (clean_json_string ((("noise \x60\x60\x60json\n").toList) ++
        ('\x7b' :: ((("\"a\":\"b\"").toList) ++ ['\x7d'])) ++ (("\n\x60\x60\x60 done").toList))) =
      pyJsonLoads (clean_json_string ('\x7b' :: ((("\"a\":\"b\"").toList) ++ ['\x7d']))) :=
  c7_extract_ignores_surrounding_noise _ _ _ (by decide) (by decide) (by decide) (by decide)
    (by decide) (by decide)

set_option maxRecDepth 400000 in
/-- C1 counterexample: the UI flow delivers the model-produced tag field
verbatim to the session state and the appended sheet row; for the concrete
tag field `"#Veo #Fun"` the delivered tags contain the denylisted vendor
token `#Veo` and no marker tag, so the spec's tag invariant is violated. -/
theorem c1_tag_policy_cex :
    handle_ai_data (("u").toList) (("2026-10-12 00:00:00.000000").toList)
        CredsOutcome.ok [] cexTagsDict
      = HandlerOutcome.saved (sessionOf cexTagsDict)
          (payloadOf (("u").toList) cexTagsDict)
          [sheetRow (("2026-10-12 00:00:00.000000").toList)
            (payloadOf (("u").toList) cexTagsDict)]
    ∧ (sessionOf cexTagsDict).ai_tags = ("#Veo #Fun").toList
    ∧ (payloadOf (("u").toList) cexTagsDict).tags = ("#Veo #Fun").toList
    ∧ ¬ specTagPolicyHolds (("#Veo #Fun").toList) := by
  exact ⟨by decide, by decide, by decide, by decide⟩

/-- C1 (amended): the tag field is delivered verbatim — with no `"error"` key
the flow succeeds and both the session state and the saved payload carry
exactly `ai_data.get('tags', '')`; no filtering or marker enforcement is
applied anywhere. -/
theorem c1_tags_passthrough (url now : Str) (sheet : List (List Str)) (d : PyDict)
    (h : dlookup d kError = none) :
    handle_ai_data url now CredsOutcome.ok sheet d
      = HandlerOutcome.saved (sessionOf d) (payloadOf url d)
          (sheet ++ [sheetRow now (payloadOf url d)])
    ∧ (sessionOf d).ai_tags = dget d kTags
    ∧ (payloadOf url d).tags = dget d kTags := by
  refine ⟨?_, rfl, rfl⟩
  unfold handle_ai_data
  rw [h]
  simp [save_to_sheet]

set_option maxRecDepth 400000 in
/-- C1 witness: the passthrough theorem applied at the concrete dictionary. -/
theorem c1_tags_passthrough_witness :
    dlookup cexTagsDict kError = none
    ∧ (handle_ai_data (("u").toList) (("t").toList) CredsOutcome.ok [] cexTagsDict
        = HandlerOutcome.saved (sessionOf cexTagsDict) (payloadOf (("u").toList) cexTagsDict)
            ([] ++ [sheetRow (("t").toList) (payloadOf (("u").toList) cexTagsDict)])
      ∧ (sessionOf cexTagsDict).ai_tags = dget cexTagsDict kTags
      ∧ (payloadOf (("u").toList) cexTagsDict).tags = dget cexTagsDict kTags) :=
  ⟨by decide, c1_tags_passthrough _ _ _ _ (by decide)⟩

set_option maxRecDepth 400000 in
/-- C2 counterexample: a payload missing the required key `title_en` is not
rejected: `generate_creative_content` returns it as a plain dictionary (no
`"error"` key, no exception), and the UI flow succeeds, defaulting the
missing title to the empty string — no `MalformedOutputError` exists. -/
theorem c2_missing_required_key_cex :
    (generate_creative_content (fun _ _ => GenOutcome.ok cexRawNoTitle)
        [] [] (("m").toList)).result = PyVal.obj cexDictNoTitle
    ∧ dlookup cexDictNoTitle kTitleEn = none
    ∧ dlookup cexDictNoTitle kError = none
    ∧ handle_ai_data (("u").toList) (("t").toList) CredsOutcome.ok [] cexDictNoTitle
        = HandlerOutcome.saved (sessionOf cexDictNoTitle)
            (payloadOf (("u").toList) cexDictNoTitle)
            [sheetRow (("t").toList) (payloadOf (("u").toList) cexDictNoTitle)]
    ∧ (payloadOf (("u").toList) cexDictNoTitle).title_en = [] := by
  exact ⟨by rfl, by decide, by decide, by decide, by decide⟩

/-- C2 (amended): extraction enforces no key requirements at all — any
dictionary recovered by `json.loads` from the cleaned text is returned as-is,
and the UI flow defaults every absent key (required or optional alike) to the
empty string; extraction fails only when no payload parses at all. -/
theorem c2_no_required_keys (backend : Str → Str → GenOutcome)
    (title desc model_name raw : Str) (d : PyDict)
    (hb : backend model_name (buildPrompt title desc) = GenOutcome.ok raw)
    (hp : pyJsonLoads (clean_json_string raw) = some d) :
    (generate_creative_content backend title desc model_name).result = PyVal.obj d
    ∧ ∀ k, dlookup d k = none → dget d k = [] := by
  constructor
  · unfold generate_creative_content
    simp only [hb, pyJsonValLoads_obj _ _ hp]
  · intro k hk
    unfold dget
    rw [hk]
    rfl

set_option maxRecDepth 400000 in
/-- C2 witness: the no-required-keys theorem applied at the concrete payload
that lacks `title_en`. -/
theorem c2_no_required_keys_witness :
    ((fun (_ _ : Str) => GenOutcome.ok cexRawNoTitle) (("m").toList)
        (buildPrompt [] []) = GenOutcome.ok cexRawNoTitle)
    ∧ pyJsonLoads (clean_json_string cexRawNoTitle) = some cexDictNoTitle
    ∧ ((generate_creative_content (fun _ _ => GenOutcome.ok cexRawNoTitle)
          [] [] (("m").toList)).result = PyVal.obj cexDictNoTitle
      ∧ ∀ k, dlookup cexDictNoTitle k = none → dget cexDictNoTitle k = []) :=
  ⟨rfl, by decide, c2_no_required_keys _ _ _ _ _ _ rfl (by decide)⟩

set_option maxRecDepth 400000 in
/-- C3 counterexample: with candidate list `[models/a, models/b]` where
`models/a` raises a model-unavailable exception and `models/b` would succeed,
the generate click performs exactly one attempt (against `models/a`),
surfaces the error dictionary, and never contacts `models/b` — there is no
fallback and no `Succeeded`-with-B outcome. -/
theorem c3_no_fallback_cex :
    (run_generate_button
        (fun m _ => if m = ("models/a").toList
          then GenOutcome.exn (("404 model not found").toList)
          else GenOutcome.ok cexGoodRaw)
        [("models/a").toList, ("models/b").toList] [] []).map
        (fun r => (r.result, r.calls))
      = some (PyVal.obj [(kError, ("404 model not found").toList)], [("models/a").toList])
    ∧ ("models/b").toList ∉ [("models/a").toList] := by
  exact ⟨by rfl, by decide⟩

/-- C3 (amended): the generate click tries only the selectbox-selected head
model, exactly once: when that model's call raises, the result is the
single-key error dictionary and no other candidate is ever contacted. -/
theorem c3_single_attempt_no_fallback (backend : Str → Str → GenOutcome)
    (a : Str) (rest : List Str) (title desc e : Str)
    (h : backend a (buildPrompt title desc) = GenOutcome.exn e) :
    run_generate_button backend (a :: rest) title desc
      = some { result := PyVal.obj [(kError, e)], calls := [a] } := by
  unfold run_generate_button generate_creative_content
  simp only [h]

/-- C3 witness: the single-attempt theorem applied at a concrete failing
backend and the two-model candidate list. -/
theorem c3_single_attempt_no_fallback_witness :
    ((fun (_ _ : Str) => GenOutcome.exn (("404").toList)) (("models/a").toList)
        (buildPrompt [] []) = GenOutcome.exn (("404").toList))
    ∧ run_generate_button (fun _ _ => GenOutcome.exn (("404").toList))
        [("models/a").toList, ("models/b").toList] [] []
      = some { result := PyVal.obj [(kError, ("404").toList)], calls := [("models/a").toList] } :=
  ⟨rfl, c3_single_attempt_no_fallback _ _ _ _ _ _ rfl⟩

set_option maxRecDepth 400000 in
/-- C4 counterexample: against a model whose every call raises a rate-limit
style exception, the generate click issues exactly one attempt — not the
claimed three — with no backoff, and returns the error dictionary. -/
theorem c4_no_retry_cex :
    (run_generate_button (fun _ _ => GenOutcome.exn (("429 Quota exceeded").toList))
        [("models/a").toList] [] []).map
        (fun r => r.calls.count (("models/a").toList))
      = some 1
    ∧ (run_generate_button (fun _ _ => GenOutcome.exn (("429 Quota exceeded").toList))
        [("models/a").toList] [] []).map GenResult.result
      = some (PyVal.obj [(kError, ("429 Quota exceeded").toList)])
    ∧ (1 : Nat) ≠ 3 := by
  exact ⟨by decide, by rfl, by decide⟩

/-- C4 (amended): a rate-limited call is not retried: the click performs
exactly one attempt total, with no backoff sleep, and the exception message
is returned immediately in the error dictionary. -/
theorem c4_single_attempt_no_backoff (backend : Str → Str → GenOutcome)
    (m : Str) (rest : List Str) (title desc e : Str)
    (h : backend m (buildPrompt title desc) = GenOutcome.exn e) :
    (run_generate_button backend (m :: rest) title desc).map (fun r => r.calls.length)
      = some 1
    ∧ run_generate_button backend (m :: rest) title desc
      = some { result := PyVal.obj [(kError, e)], calls := [m] } := by
  unfold run_generate_button generate_creative_content
  simp only [h]
  exact ⟨rfl, trivial⟩

/-- C4 witness: the single-attempt theorem applied at a concrete always-
rate-limited backend. -/
theorem c4_single_attempt_no_backoff_witness :
    ((fun (_ _ : Str) => GenOutcome.exn (("429").toList)) (("models/a").toList)
        (buildPrompt [] []) = GenOutcome.exn (("429").toList))
    ∧ ((run_generate_button (fun _ _ => GenOutcome.exn (("429").toList))
          [("models/a").toList] [] []).map (fun r => r.calls.length) = some 1
      ∧ run_generate_button (fun _ _ => GenOutcome.exn (("429").toList))
          [("models/a").toList] [] []
        = some { result := PyVal.obj [(kError, ("429").toList)], calls := [("models/a").toList] }) :=
  ⟨rfl, c4_single_attempt_no_backoff _ _ _ _ _ _ rfl⟩

/-- C5 counterexample: with a present key and an unreachable listing service,
`get_valid_models` silently returns the ordinary value `[]` — it never fails
with any error, so no `CapabilityDiscoveryError` hard stop exists. -/
theorem c5_silent_discovery_cex :
    get_valid_models (some (("k").toList))
        (ListModelsOutcome.exn [] (("service unreachable").toList)) = Except.ok []
    ∧ ¬ ∃ e, get_valid_models (some (("k").toList))
        (ListModelsOutcome.exn [] (("service unreachable").toList)) = Except.error e := by
  refine ⟨rfl, ?_⟩
  rintro ⟨e, he⟩
  have hok : get_valid_models (some (("k").toList))
      (ListModelsOutcome.exn [] (("service unreachable").toList)) = Except.ok [] := rfl
  rw [hok] at he
  exact Except.noConfusion he

/-- C5 (amended): `get_valid_models` never raises: a falsy key yields `[]`,
an immediate listing failure yields `[]`, and in every case the function
returns an ordinary list, so discovery failure is silent, not a hard stop. -/
theorem c5_get_valid_models_never_raises :
    (∀ key o, ∃ l, get_valid_models key o = Except.ok l)
    ∧ (∀ o, get_valid_models none o = Except.ok [])
    ∧ (∀ key msg, get_valid_models key (ListModelsOutcome.exn [] msg) = Except.ok []) := by
  refine ⟨?_, ?_, ?_⟩
  · intro key o
    unfold get_valid_models
    by_cases h : key = none ∨ key = some []
    · rw [if_pos h]
      exact ⟨[], rfl⟩
    · rw [if_neg h]
      cases o with
      | ok ms => exact ⟨_, rfl⟩
      | exn ms msg => exact ⟨_, rfl⟩
  · intro o
    unfold get_valid_models
    rw [if_pos (Or.inl rfl)]
  · intro key msg
    unfold get_valid_models
    by_cases h : key = none ∨ key = some []
    · rw [if_pos h]
    · rw [if_neg h]
      show Except.ok (pySortedDesc (capableNames [])) = Except.ok []
      rfl

theorem mem_insertDesc (x y : Str) (l : List Str) :
    y ∈ insertDesc x l ↔ y = x ∨ y ∈ l := by
  induction l with
  | nil => simp [insertDesc]
  | cons z zs ih =>
    unfold insertDesc
    by_cases h : strLt z x = true
    · simp only [if_pos h, List.mem_cons]
    · simp only [if_neg h, List.mem_cons, ih]
      tauto

theorem mem_pySortedDesc (x : Str) (l : List Str) : x ∈ pySortedDesc l ↔ x ∈ l := by
  induction l with
  | nil => simp [pySortedDesc]
  | cons y ys ih => simp [pySortedDesc, mem_insertDesc, ih]

theorem strLt_irrefl : ∀ a : Str, strLt a a = false := by
  intro a
  induction a with
  | nil => rfl
  | cons x xs ih => simp [strLt, ih]

theorem strLt_trans : ∀ a b c : Str, strLt a b = true → strLt b c = true → strLt a c = true := by
  intro a
  induction a with
  | nil =>
    intro b c hab hbc
    cases b with
    | nil => simp [strLt] at hab
    | cons y ys =>
      cases c with
      | nil => simp [strLt] at hbc
      | cons z zs => rfl
  | cons x xs ih =>
    intro b c hab hbc
    cases b with
    | nil => simp [strLt] at hab
    | cons y ys =>
      cases c with
      | nil => simp [strLt] at hbc
      | cons z zs =>
        simp only [strLt] at hab hbc ⊢
        by_cases h1 : x.toNat < y.toNat
        · by_cases h2 : y.toNat < z.toNat
          · simp [Nat.lt_trans h1 h2]
          · by_cases h3 : z.toNat < y.toNat
            · simp [h2, h3] at hbc
            · have hxz : x.toNat < z.toNat := by omega
              simp [hxz]
        · by_cases h4 : y.toNat < x.toNat
          · simp [h1, h4] at hab
          · by_cases h2 : y.toNat < z.toNat
            · have hxz : x.toNat < z.toNat := by omega
              simp [hxz]
            · by_cases h3 : z.toNat < y.toNat
              · simp [h2, h3] at hbc
              · have hx1 : ¬ x.toNat < z.toNat := by omega
                have hx2 : ¬ z.toNat < x.toNat := by omega
                simp only [h1, h4, if_false, if_neg h1, if_neg h4] at hab
                simp only [if_neg h2, if_neg h3] at hbc
                simp [hx1, hx2, ih ys zs hab hbc]

theorem strLt_asymm (a b : Str) (h : strLt a b = true) : strLt b a = false := by
  cases h' : strLt b a with
  | false => rfl
  | true =>
    have h2 := strLt_trans a b a h h'
    rw [strLt_irrefl] at h2
    exact Bool.noConfusion h2

theorem pairwise_insertDesc (x : Str) (l : List Str)
    (hl : l.Pairwise (fun a b => strLt a b = false)) :
    (insertDesc x l).Pairwise (fun a b => strLt a b = false) := by
  induction l with
  | nil => simp [insertDesc]
  | cons y ys ih =>
    rw [List.pairwise_cons] at hl
    obtain ⟨hy, hys⟩ := hl
    unfold insertDesc
    by_cases h : strLt y x = true
    · rw [if_pos h]
      refine List.Pairwise.cons ?_ (List.Pairwise.cons hy hys)
      intro b hb
      cases List.mem_cons.mp hb with
      | inl hb1 => exact hb1 ▸ strLt_asymm y x h
      | inr hb2 =>
        have hyb := hy b hb2
        cases hxb : strLt x b with
        | false => rfl
        | true =>
          have h3 := strLt_trans y x b h hxb
          rw [hyb] at h3
          exact Bool.noConfusion h3
    · rw [if_neg h]
      refine List.Pairwise.cons ?_ (ih hys)
      intro b hb
      cases (mem_insertDesc x b ys).mp hb with
      | inl hb1 =>
        have hyx : strLt y x = false := by
          cases hx : strLt y x with
          | false => rfl
          | true => exact absurd hx h
        exact hb1 ▸ hyx
      | inr hb2 => exact hy b hb2

theorem pairwise_pySortedDesc (l : List Str) :
    (pySortedDesc l).Pairwise (fun a b => strLt a b = false) := by
  induction l with
  | nil => simp [pySortedDesc]
  | cons x xs ih => exact pairwise_insertDesc x _ ih

set_option maxRecDepth 400000 in
/-- C6 counterexample: with a backend listing of two capable models in the
order `models/a, models/b`, `get_valid_models` returns them reordered
(`sorted(..., reverse=True)` gives `models/b, models/a`), not in the order
the backend provided. -/
theorem c6_reorders_models_cex :
    capableNames [cexModelA, cexModelB] = [("models/a").toList, ("models/b").toList]
    ∧ get_valid_models (some (("k").toList)) (ListModelsOutcome.ok [cexModelA, cexModelB])
        = Except.ok [("models/b").toList, ("models/a").toList]
    ∧ get_valid_models (some (("k").toList)) (ListModelsOutcome.ok [cexModelA, cexModelB])
        ≠ Except.ok (capableNames [cexModelA, cexModelB]) := by
  refine ⟨by decide, rfl, ?_⟩
  intro h
  have h3 : get_valid_models (some (("k").toList))
      (ListModelsOutcome.ok [cexModelA, cexModelB])
      = Except.ok [("models/b").toList, ("models/a").toList] := rfl
  rw [h3] at h
  injection h with h4
  exact absurd h4 (by decide)

/-- C6 (amended): on a successful listing with a usable key, the result is
exactly the identifiers whose `supported_generation_methods` contain
`'generateContent'` — but sorted in reverse lexicographic order by the
directory itself, not in the order the backend provided them. -/
theorem c6_filter_exact_but_sorted (key : Str) (ms : List ModelInfo) (hk : key ≠ []) :
    get_valid_models (some key) (ListModelsOutcome.ok ms)
        = Except.ok (pySortedDesc (capableNames ms))
    ∧ (∀ x, x ∈ pySortedDesc (capableNames ms) ↔
        ∃ m ∈ ms, genContentMethod ∈ m.supported_generation_methods ∧ m.name = x)
    ∧ (pySortedDesc (capableNames ms)).Pairwise (fun a b => strLt a b = false) := by
  refine ⟨?_, ?_, pairwise_pySortedDesc _⟩
  · unfold get_valid_models
    have hcond : ¬(some key = none ∨ some key = some ([] : Str)) := by
      rintro (h | h)
      · exact Option.noConfusion h
      · injection h with h'
        exact hk h'
    rw [if_neg hcond]
  · intro x
    rw [mem_pySortedDesc]
    unfold capableNames
    simp only [List.mem_map, List.mem_filter, decide_eq_true_eq]
    constructor
    · rintro ⟨m, ⟨hm, hcap⟩, hname⟩
      exact ⟨m, hm, hcap, hname⟩
    · rintro ⟨m, hm, hcap, hname⟩
      exact ⟨m, ⟨hm, hcap⟩, hname⟩

set_option maxRecDepth 400000 in
/-- C6 witness: the filter-and-sort theorem applied at the concrete
two-model listing. -/
theorem c6_filter_exact_but_sorted_witness :
    (("k").toList ≠ [])
    ∧ (get_valid_models (some (("k").toList)) (ListModelsOutcome.ok [cexModelA, cexModelB])
        = Except.ok (pySortedDesc (capableNames [cexModelA, cexModelB]))
      ∧ (∀ x, x ∈ pySortedDesc (capableNames [cexModelA, cexModelB]) ↔
          ∃ m ∈ [cexModelA, cexModelB],
            genContentMethod ∈ m.supported_generation_methods ∧ m.name = x)
      ∧ (pySortedDesc (capableNames [cexModelA, cexModelB])).Pairwise
          (fun a b => strLt a b = false)) :=
  ⟨by decide, c6_filter_exact_but_sorted _ _ (by decide)⟩

/-- C8: the prompt builder is deterministic — it is pure template
interpolation, so identical title and description fields give byte-identical
prompt strings. -/
theorem c8_buildPrompt_deterministic (t₁ d₁ t₂ d₂ : Str) (ht : t₁ = t₂) (hd : d₁ = d₂) :
    buildPrompt t₁ d₁ = buildPrompt t₂ d₂ := by
  rw [ht, hd]

/-- C8 witness: determinism at a concrete title and description. -/
theorem c8_buildPrompt_deterministic_witness :
    (("a").toList = ("a").toList)
    ∧ buildPrompt (("a").toList) (("b").toList)
        = buildPrompt (("a").toList) (("b").toList) :=
  ⟨rfl, c8_buildPrompt_deterministic _ _ _ _ rfl rfl⟩

/-- C9: every successful save appends exactly one row whose fields appear in
the fixed positional order (timestamp, url, English title, local title,
primary prompt, secondary prompt, English script, local script, tags,
comment); existing rows are never updated or deleted, and a failed save
leaves the sheet untouched. -/
theorem c9_save_appends_single_fixed_row (now : Str) (d : SavePayload)
    (sheet : List (List Str)) :
    save_to_sheet now d CredsOutcome.ok sheet = (true, sheet ++ [sheetRow now d])
    ∧ sheetRow now d = [now.take 16, d.url, d.title_en, d.title_zh, d.veo_prompt,
        d.kling_prompt, d.script_en, d.script_zh, d.tags, d.comment]
    ∧ (∀ m, save_to_sheet now d (CredsOutcome.exn m) sheet = (false, sheet))
    ∧ (∀ c, sheet <+: (save_to_sheet now d c sheet).2)
    ∧ (save_to_sheet now d CredsOutcome.ok sheet).2.length = sheet.length + 1 := by
  refine ⟨rfl, rfl, fun m => rfl, ?_, by simp [save_to_sheet]⟩
  intro c
  cases c with
  | ok => exact List.prefix_append _ _
  | exn m => exact List.prefix_refl _

set_option maxRecDepth 400000 in
/-- C10 counterexample: when the model's text is brace-free valid non-dict
JSON, `clean_json_string` leaves it unchanged and `json.loads` succeeds, so
`generate_creative_content` returns the non-dict value (`None` for `null`, a
list for `[1, 2]`) — neither the parsed-dictionary shape nor the single-key
`{"error": ...}` dictionary that the claim says are the only two returns. -/
theorem c10_nondict_value_cex :
    (generate_creative_content (fun _ _ => GenOutcome.ok (("null").toList))
        [] [] (("m").toList)).result = PyVal.null
    ∧ (generate_creative_content (fun _ _ => GenOutcome.ok (("[1, 2]").toList))
        [] [] (("m").toList)).result = PyVal.arr [PyVal.int 1, PyVal.int 2]
    ∧ (∀ d : PyDict, PyVal.null ≠ PyVal.obj d)
    ∧ (∀ d : PyDict, PyVal.arr [PyVal.int 1, PyVal.int 2] ≠ PyVal.obj d) := by
  refine ⟨rfl, rfl, fun d h => PyVal.noConfusion h, fun d h => PyVal.noConfusion h⟩

/-- C10 (amended): `generate_creative_content` never propagates an exception,
but its successful return is whatever value `json.loads` produced — not
necessarily a dictionary (null, arrays, numbers, strings and booleans are
returned as-is); only when the model call or `json.loads` raises does it
return the dictionary whose single key is `"error"`, with no distinct error
kinds. -/
theorem c10_generate_value_or_error (backend : Str → Str → GenOutcome)
    (title desc model_name : Str) :
    (∃ raw v, backend model_name (buildPrompt title desc) = GenOutcome.ok raw
      ∧ pyJsonValLoads (clean_json_string raw) = some v
      ∧ (generate_creative_content backend title desc model_name).result = v)
    ∨ (∃ m, (generate_creative_content backend title desc model_name).result
        = PyVal.obj [(kError, m)]) := by
  unfold generate_creative_content
  cases hb : backend model_name (buildPrompt title desc) with
  | exn m => exact Or.inr ⟨m, rfl⟩
  | ok t =>
    cases hp : pyJsonValLoads (clean_json_string t) with
    | some v =>
      refine Or.inl ⟨t, v, rfl, hp, ?_⟩
      simp only [hp]
    | none => exact Or.inr ⟨jsonDecodeErrMsg t, by simp only [hp]⟩
